import Mathlib

/-!
Verification of the regmap field / regulator / panel power-sequencing layer.

The definitions below are shallow embeddings of the Rust sources:
  * `src/rust/kernel/regmap.rs` — access bits, field descriptor generation
    (`regmap_field_bit`, `regmap_field_raw`, `regmap_field_enum`), and the
    generated `AccessOps` register-access predicates.
  * `src/drivers/regulator/ncv6336.rs` — the NCV6336 register declaration and
    the `set_suspend_voltage` / `get_mode` operations.
  * `src/drivers/gpu/drm/panel/panel_truly_r63350.rs` — the panel
    `prepare` / `unprepare` power sequencer, embedded as a trace-producing
    state transformer with failure injection for the fallible hardware calls.
-/

namespace Spec2Proof

/-! ## Register access bits (`regmap.rs`, `mod access`) -/

def READ : Nat := 0b000001
def WRITE : Nat := 0b000010
def PRECIOUS : Nat := 0b000100
def VOLATILE : Nat := 0b001000
def WRITE_NO_INC : Nat := 0b010000
def READ_NO_INC : Nat := 0b100000
def RW : Nat := READ ||| WRITE

/-- Modelled from the spec: `kernel::bits::genmask(h, l)` — `rust/kernel/bits.rs`
is not in the tree; per spec §4.1/§8 (and the standard Linux `GENMASK`) it is the
word with contiguous 1-bits from bit `l` to bit `h` inclusive, here over `Nat`
(coinciding with the `u32` version for `h < 32`). -/
def genmask (h l : Nat) : Nat := 2 ^ (h + 1) - 2 ^ l

/-- `struct reg_field` (the three components the macros populate;
`id_offset` and `id_size` are always 0). -/
structure RegField where
  reg : Nat
  lsb : Nat
  msb : Nat
  deriving DecidableEq

/-- `regmap_field_bit!` `reserved` arm (regmap.rs lines 270-291): the generated
`reg_field()` for a `bit($pos, ...)` field. Note the source sets
`msb: $pos + 1`. -/
def bit_reg_field (reg pos : Nat) : RegField :=
  { reg := reg, lsb := pos, msb := pos + 1 }

/-- `regmap_field_bit!` generated `mask()`: `genmask($pos, $pos)`. -/
def bit_mask (pos : Nat) : Nat := genmask pos pos

/-- `regmap_field_raw!` `reserved` arm (regmap.rs lines 459-482): the generated
`reg_field()` for a `raw([$msb:$lsb], ...)` field. -/
def raw_reg_field (reg lsb msb : Nat) : RegField :=
  { reg := reg, lsb := lsb, msb := msb }

/-- `regmap_field_raw!` generated `mask()`: `genmask($msb, $lsb)`. -/
def raw_mask (lsb msb : Nat) : Nat := genmask msb lsb

/-- `regmap_field_enum!` `reserved` arm (regmap.rs lines 383-398): same
`reg_field` shape as a raw field. -/
def enum_reg_field (reg lsb msb : Nat) : RegField :=
  { reg := reg, lsb := lsb, msb := msb }

/-- `regmap_field_enum!` generated `mask()`: `genmask($msb, $lsb)`. -/
def enum_mask (lsb msb : Nat) : Nat := genmask msb lsb

/-! ## Generated access predicates (`regmap_check_access!` + `AccessOps`) -/

/-- One expansion of `regmap_check_access!`:
`if access::$type & $access > 0 && $reg == $addr { return true }`. -/
def check_access (bit access reg addr : Nat) : Bool :=
  decide (bit &&& access > 0) && (reg == addr)

/-- The body of a generated `is_*_reg`: one `check_access` per declared
register, in declaration order, falling through to `false`. -/
def access_any (bit : Nat) : List (Nat × Nat) → Nat → Bool
  | [], _ => false
  | (addr, acc) :: rest, reg =>
    if check_access bit acc reg addr then true else access_any bit rest reg

/-- The NCV6336 register declaration (`ncv6336.rs` lines 35-86):
`(address, access)` pairs in declaration order. -/
def ncv_regs : List (Nat × Nat) :=
  [(0x3, READ), (0x4, READ), (0x5, READ),
   (0x10, RW), (0x11, RW), (0x12, RW), (0x14, RW), (0x16, RW)]

def is_readable_reg (reg : Nat) : Bool := access_any READ ncv_regs reg
def is_writeable_reg (reg : Nat) : Bool := access_any WRITE ncv_regs reg
def is_volatile_reg (reg : Nat) : Bool := access_any VOLATILE ncv_regs reg
def is_precious_reg (reg : Nat) : Bool := access_any PRECIOUS ncv_regs reg
def is_readable_noinc_reg (reg : Nat) : Bool := access_any READ_NO_INC ncv_regs reg
def is_writeable_noinc_reg (reg : Nat) : Bool := access_any WRITE_NO_INC ncv_regs reg

/-- The NCV6336 declared register addresses. -/
def ncv_addrs : List Nat := [0x3, 0x4, 0x5, 0x10, 0x11, 0x12, 0x14, 0x16]

/-! ## NCV6336 operations (`ncv6336.rs`) -/

/-- Kernel error codes appearing in the embedded operations. -/
inductive KErr where
  | EINVAL
  | EIO
  | ENOTSUPP
  deriving DecidableEq

/-- Regulator operating modes (`kernel::regulator::Mode`). -/
inductive Mode where
  | Invalid
  | Fast
  | Normal
  | Idle
  | Standby
  deriving DecidableEq

/-- The NCV6336 fields written by the suspend operations. -/
inductive NcvField where
  | progvsel1_voutvsel1
  | progvsel1_envsel1
  | command_vselgt
  deriving DecidableEq

/-- Bit range of each such field per the register declaration
(`progvsel1.voutvsel1` is `raw([6:0], rw)` at address 0x10). -/
def ncv_field_desc : NcvField → RegField
  | .progvsel1_voutvsel1 => raw_reg_field 0x10 0 6
  | .progvsel1_envsel1 => bit_reg_field 0x10 7
  | .command_vselgt => bit_reg_field 0x14 0

/-- The selector computation inside `set_suspend_voltage` (ncv6336.rs lines
253-260). Rust `i32` division/remainder truncate toward zero, i.e. `Int.tdiv`
and `Int.tmod`. -/
def suspend_selector (uv : Int) : Int :=
  let quot := (uv - 600000).tdiv 6250
  let rem := (uv - 600000).tmod 6250
  if rem > 0 then quot + 1 else quot

/-- `set_suspend_voltage` (ncv6336.rs lines 248-264): computes the selector,
fetches the per-device data (an error `EINVAL` if it has been revoked), and
writes the selector to `progvsel1.voutvsel1`. The result records which field
gets written and the value. -/
def set_suspend_voltage (revoked : Bool) (uv : Int) : Except KErr (NcvField × Int) :=
  let selector := suspend_selector uv
  if revoked then .error .EINVAL
  else .ok (.progvsel1_voutvsel1, selector)

/-- `get_mode` (ncv6336.rs lines 227-238). Inputs: whether
`data.registrations()` yielded a guard (`none` = revoked), and the result of
`command::pwmvsel0::is_set`. Total by construction — it returns a `Mode`,
never an error. -/
def get_mode (registrations : Option Unit) (pwmvsel0_read : Except KErr Bool) : Mode :=
  match registrations with
  | some _ =>
    match pwmvsel0_read with
    | .ok true => .Fast
    | .ok false => .Normal
    | .error _ => .Invalid
  | none => .Invalid

example : suspend_selector 600001 = 1 := by decide
example : suspend_selector 600000 = 0 := by decide
example : suspend_selector 606250 = 1 := by decide
example : suspend_selector 593750 = -1 := by decide

example : is_readable_reg 0x3 = true := by decide
example : is_writeable_reg 0x3 = false := by decide
example : is_writeable_reg 0x10 = true := by decide
example : is_volatile_reg 0x10 = false := by decide
example : is_readable_reg 0x7 = false := by decide
example : bit_reg_field 0x11 7 = { reg := 0x11, lsb := 7, msb := 8 } := by decide
example : bit_mask 7 = 0x80 := by decide
example : raw_mask 0 6 = 0x7f := by decide

/-! ## Panel power sequencer (`panel_truly_r63350.rs`)

`prepare` / `unprepare` are embedded as trace-producing state transformers.
An event is recorded for every hardware call the driver issues (GPIO write,
regulator enable/disable, blocking sleep, DSI bus command); a `PrepEnv`
injects success/failure for each fallible call. The `KVec` allocation at
prepare line 92 and the pushes into it cannot fail (capacity 3 is reserved
up front) and are modelled as succeeding. `ScopeGuard` cleanups run at the
early-return points in reverse declaration order of the live guards (Rust
drop order): the reset-line guard (declared second) before the regulator
guard; the regulator guard iterates its `KVec` with `into_iter`, i.e. in
push order. -/

/-- `mipi_dsi::mode::LPM` (mipi_dsi.rs line 30). -/
def LPM : Nat := 0b100000000000

def U64_MASK : Nat := 2 ^ 64 - 1

/-- `time::NSEC_PER_MSEC`. -/
def NSEC_PER_MSEC : Int := 1000000

def I64_MAX : Int := 2 ^ 63 - 1

def I64_MIN : Int := -(2 ^ 63)

/-- `i64::saturating_mul`, used by `Delta::from_millis`. -/
def sat_mul (a b : Int) : Int :=
  let p := a * b
  if p > I64_MAX then I64_MAX else if p < I64_MIN then I64_MIN else p

/-- `Delta::from_millis` (time.rs): nanoseconds value. -/
def delta_from_millis (ms : Int) : Int := sat_mul ms NSEC_PER_MSEC

/-- `Delta::from_nanos` (time.rs). -/
def delta_from_nanos (ns : Int) : Int := ns

/-- Hardware events issued by the panel sequencer, in issue order. -/
inductive Ev where
  | set_reset (v : Nat)
  | sleep (ns : Int)
  | enable_rail (i : Nat)
  | disable_rail (i : Nat)
  | soft_reset
  | write_cmd (payload : List Nat)
  | exit_sleep
  | display_on
  | display_off
  | enter_sleep
  deriving DecidableEq

/-- A panel command table entry: `(&[u8], i64)` — payload bytes and
post-delay in milliseconds. -/
def Cmd : Type := List Nat × Int

/-- The mutable per-device panel state (`Registrations` fields observable by
the claims): presence and logical level of the reset line, which rails are
enabled, the `prepared` flag, and the DSI mode-flag word. -/
structure PanelState where
  hasReset : Bool
  resetVal : Nat
  railOn : Nat → Bool
  prepared : Bool
  modeFlags : Nat

/-- Failure injection for the fallible calls `prepare` makes. -/
structure PrepEnv where
  railOk : Nat → Bool
  softResetOk : Bool
  cmdOk : Nat → Bool
  exitSleepOk : Bool
  displayOnOk : Bool

/-- Error token identifying which call failed; the driver propagates the
failing call's error unchanged, so the token stands for that error value. -/
inductive PrepErr where
  | rail (i : Nat)
  | softReset
  | cmd (i : Nat)
  | exitSleep
  | displayOn
  deriving DecidableEq

def setRail (st : PanelState) (i : Nat) (b : Bool) : PanelState :=
  { st with railOn := fun j => if j = i then b else st.railOn j }

def setReset (st : PanelState) (v : Nat) : PanelState :=
  { st with resetVal := v }

/-- The rail-enabling loop (prepare lines 100-103): enable each rail in
declaration order, recording each successfully enabled rail (the `KVec`
pushes, in push order); the first failure stops the loop. -/
def enable_rails (env : PrepEnv) : PanelState → List Nat → List Nat →
    List Ev × PanelState × List Nat × Option Nat
  | st, pushed, [] => ([], st, pushed, none)
  | st, pushed, i :: rest =>
    if env.railOk i then
      let r := enable_rails env (setRail st i true) (pushed ++ [i]) rest
      (Ev.enable_rail i :: r.1, r.2)
    else
      ([Ev.enable_rail i], st, pushed, some i)

/-- Disabling a list of rails in list order: the regulator `ScopeGuard`
cleanup (`v.into_iter().for_each(|r| { let _ = r.disable(); })`), and also the
rail-disable loop of `unprepare`. The `disable()` results are ignored by the
driver; the disables are modelled as taking effect. -/
def disable_rails : PanelState → List Nat → List Ev × PanelState
  | st, [] => ([], st)
  | st, i :: rest =>
    let r := disable_rails (setRail st i false) rest
    (Ev.disable_rail i :: r.1, r.2)

/-- The reset-line `ScopeGuard` cleanup (prepare lines 109-113): re-assert
the reset line if one exists. -/
def reset_guard (st : PanelState) : List Ev × PanelState :=
  if st.hasReset then ([Ev.set_reset 1], setReset st 1) else ([], st)

/-- The panel-on command loop (prepare lines 127-136): write each command's
payload; on success sleep for its post-delay (100 ns when the declared delay
is zero, otherwise the delay in milliseconds); the first failing write stops
the loop. Returns the trace and the index of the failing command, if any. -/
def cmd_loop (env : PrepEnv) : Nat → List Cmd → List Ev × Option Nat
  | _, [] => ([], none)
  | idx, c :: rest =>
    if env.cmdOk idx then
      let dur := if c.2 == 0 then delta_from_nanos 100 else delta_from_millis c.2
      let r := cmd_loop env (idx + 1) rest
      (Ev.write_cmd c.1 :: Ev.sleep dur :: r.1, r.2)
    else
      ([Ev.write_cmd c.1], some idx)

/-- `Operations::prepare` (panel_truly_r63350.rs lines 80-150). -/
def prepare (st0 : PanelState) (cmds : List Cmd) (env : PrepEnv) :
    List Ev × PanelState × Except PrepErr Unit :=
  let a := if st0.hasReset then ([Ev.set_reset 1], setReset st0 1) else ([], st0)
  let t1 := a.1 ++ [Ev.sleep (delta_from_millis 30)]
  let st1 := a.2
  let r := enable_rails env st1 [] [0, 1, 2]
  let tE := r.1
  let st2 := r.2.1
  let pushed := r.2.2.1
  match r.2.2.2 with
  | some i =>
    let g := disable_rails st2 pushed
    (t1 ++ tE ++ g.1, g.2, .error (.rail i))
  | none =>
    let t2 := t1 ++ tE ++ [Ev.sleep (delta_from_millis 30)]
    let b := if st0.hasReset then ([Ev.set_reset 0], setReset st2 0) else ([], st2)
    let t3 := t2 ++ b.1 ++ [Ev.sleep (delta_from_millis 30)]
    let st3 := b.2
    let st4 := { st3 with modeFlags := st3.modeFlags ||| LPM }
    let t4 := t3 ++ [Ev.soft_reset]
    if env.softResetOk = false then
      let gr := reset_guard st4
      let g := disable_rails gr.2 pushed
      (t4 ++ gr.1 ++ g.1, g.2, .error .softReset)
    else
      let t5 := t4 ++ [Ev.sleep (delta_from_millis 20)]
      let c := cmd_loop env 0 cmds
      match c.2 with
      | some i =>
        let gr := reset_guard st4
        let g := disable_rails gr.2 pushed
        (t5 ++ c.1 ++ gr.1 ++ g.1, g.2, .error (.cmd i))
      | none =>
        let t6 := t5 ++ c.1 ++ [Ev.exit_sleep]
        if env.exitSleepOk = false then
          let gr := reset_guard st4
          let g := disable_rails gr.2 pushed
          (t6 ++ gr.1 ++ g.1, g.2, .error .exitSleep)
        else
          let t7 := t6 ++ [Ev.sleep (delta_from_millis 120), Ev.display_on]
          if env.displayOnOk = false then
            let gr := reset_guard st4
            let g := disable_rails gr.2 pushed
            (t7 ++ gr.1 ++ g.1, g.2, .error .displayOn)
          else
            let t8 := t7 ++ [Ev.sleep (delta_from_millis 120)]
            (t8, { st4 with prepared := true }, .ok ())

/-- `Operations::unprepare` (panel_truly_r63350.rs lines 152-189). All the
hardware calls it makes are best-effort (results discarded), so the control
flow is deterministic: if not prepared, return success immediately; otherwise
clear `LPM`, issue display-off / enter-sleep and the whole power-off command
table with the same per-command delay rule as `prepare`, re-assert the reset
line if present, disable every rail in declaration order, and clear
`prepared`. -/
def unprepare (st0 : PanelState) (offCmds : List Cmd) :
    List Ev × PanelState × Except PrepErr Unit :=
  if st0.prepared = false then ([], st0, .ok ())
  else
    let st1 := { st0 with modeFlags := st0.modeFlags &&& (U64_MASK ^^^ LPM) }
    let t1 := [Ev.display_off, Ev.sleep (delta_from_millis 120), Ev.enter_sleep]
    let t2 := t1 ++ offCmds.flatMap (fun c =>
      [Ev.write_cmd c.1,
       Ev.sleep (if c.2 == 0 then delta_from_nanos 100 else delta_from_millis c.2)])
    let b := if st1.hasReset then ([Ev.set_reset 1], setReset st1 1) else ([], st1)
    let g := disable_rails b.2 [0, 1, 2]
    (t2 ++ b.1 ++ g.1, { g.2 with prepared := false }, .ok ())

/-- The rail indices of the `disable_rail` events of a trace, in order. -/
def disables (tr : List Ev) : List Nat :=
  tr.filterMap fun e => match e with
    | .disable_rail i => some i
    | _ => none

def st_test : PanelState :=
  { hasReset := false, resetVal := 1, railOn := fun _ => false,
    prepared := false, modeFlags := 3 }

def env_rail2_fails : PrepEnv :=
  { railOk := fun i => i < 2, softResetOk := true, cmdOk := fun _ => true,
    exitSleepOk := true, displayOnOk := true }

example :
    (prepare st_test [] env_rail2_fails).1 =
      [Ev.sleep 30000000, Ev.enable_rail 0, Ev.enable_rail 1, Ev.enable_rail 2,
       Ev.disable_rail 0, Ev.disable_rail 1] := by decide

example : (prepare st_test [] env_rail2_fails).2.2 = .error (.rail 2) := rfl

example : disables (prepare st_test [] env_rail2_fails).1 = [0, 1] := by decide

/-! ## Helper lemmas -/

lemma check_access_eq_true {bit acc reg addr : Nat}
    (h : check_access bit acc reg addr = true) : reg = addr := by
  have h2 := (Bool.and_eq_true _ _).mp h
  simpa using h2.2

lemma access_any_mem {bit : Nat} {l : List (Nat × Nat)} {reg : Nat}
    (h : access_any bit l reg = true) : reg ∈ l.map Prod.fst := by
  induction l with
  | nil => simp [access_any] at h
  | cons p rest ih =>
    rw [access_any] at h
    by_cases hc : check_access bit p.2 reg p.1 = true
    · simp [check_access_eq_true hc]
    · rw [if_neg hc] at h
      exact List.mem_cons_of_mem _ (ih h)

lemma access_any_eq_false {bit reg : Nat} (h : reg ∉ ncv_addrs) :
    access_any bit ncv_regs reg = false := by
  cases hb : access_any bit ncv_regs reg with
  | false => rfl
  | true =>
    have hmem : reg ∈ ncv_regs.map Prod.fst := access_any_mem hb
    have : reg ∈ ncv_addrs := by simpa [ncv_regs, ncv_addrs] using hmem
    exact absurd this h

lemma genmask_eq_shift {h l : Nat} (hle : l ≤ h) :
    genmask h l = (2 ^ (h - l + 1) - 1) * 2 ^ l := by
  unfold genmask
  have h1 : h + 1 = (h - l + 1) + l := by omega
  rw [h1, pow_add, Nat.sub_mul, one_mul]

lemma genmask_testBit {h l : Nat} (hle : l ≤ h) (i : Nat) :
    (genmask h l).testBit i = decide (l ≤ i ∧ i ≤ h) := by
  rw [genmask_eq_shift hle, ← Nat.shiftLeft_eq, Nat.testBit_shiftLeft,
    Nat.testBit_two_pow_sub_one]
  rcases Nat.lt_or_ge i l with hlt | hge
  · have h1 : ¬(l ≤ i) := by omega
    have h2 : ¬(l ≤ i ∧ i ≤ h) := by omega
    simp [h1, h2]
  · have h2 : (i - l < h - l + 1) ↔ (l ≤ i ∧ i ≤ h) := by omega
    simp [hge, h2]

/-! ## Claim theorems -/

/-- C3: the claim says a `Bit` field declared at position `p` generates a
`reg_field` with `lsb = msb = p` and `mask() = 1 <<< p`. The source
(`regmap_field_bit!`, regmap.rs line 280) instead sets `msb: $pos + 1`,
producing a two-bit descriptor that contradicts the same macro's
`mask() = genmask(pos, pos)`; at position 7 of the 8-bit NCV6336 registers
(e.g. `progvsel0.envsel0`, register 0x11) the generated `msb = 8` even
exceeds the configured value width. This theorem evaluates the embedded
generator at that failing input. -/
theorem bit_field_descriptor_msb_bug :
    (bit_reg_field 0x11 7).lsb = 7 ∧
    (bit_reg_field 0x11 7).msb = 8 ∧
    (bit_reg_field 0x11 7).msb ≠ (bit_reg_field 0x11 7).lsb ∧
    bit_mask 7 = 1 <<< 7 ∧
    genmask (bit_reg_field 0x11 7).msb (bit_reg_field 0x11 7).lsb ≠ bit_mask 7 := by
  decide

/-- C10: `get_mode` is total — for every revocation status and every outcome
of the `pwmvsel0` bit read it returns a `Mode` value, mapping a set bit to
`Fast`, a clear bit to `Normal`, and both a failed field read and revoked
device data to `Invalid`. -/
theorem get_mode_total (regs : Option Unit) (rb : Except KErr Bool) :
    (get_mode regs rb = Mode.Fast ∨ get_mode regs rb = Mode.Normal ∨
      get_mode regs rb = Mode.Invalid) ∧
    (regs.isSome = true → rb = .ok true → get_mode regs rb = Mode.Fast) ∧
    (regs.isSome = true → rb = .ok false → get_mode regs rb = Mode.Normal) ∧
    (∀ e, rb = .error e → get_mode regs rb = Mode.Invalid) ∧
    (regs = none → get_mode regs rb = Mode.Invalid) := by
  cases regs with
  | none => cases rb <;> simp [get_mode]
  | some u =>
    cases rb with
    | error e => simp [get_mode]
    | ok b => cases b <;> simp [get_mode]

/-- Witness for C10 at a concrete input. -/
theorem get_mode_total_witness :
    get_mode (some ()) (.ok true) = Mode.Fast :=
  (get_mode_total (some ()) (.ok true)).2.1 rfl rfl

/-- C7: every register address not in the NCV6336 declaration answers `false`
to all six generated access predicates, and each declared address answers
`true` exactly for the access bits it was declared with. -/
theorem undeclared_register_inaccessible :
    (∀ reg : Nat, reg ∉ ncv_addrs →
      is_readable_reg reg = false ∧ is_writeable_reg reg = false ∧
      is_volatile_reg reg = false ∧ is_precious_reg reg = false ∧
      is_readable_noinc_reg reg = false ∧ is_writeable_noinc_reg reg = false) ∧
    (∀ p ∈ ncv_regs,
      (is_readable_reg p.1 = true ↔ p.2 &&& READ > 0) ∧
      (is_writeable_reg p.1 = true ↔ p.2 &&& WRITE > 0) ∧
      (is_volatile_reg p.1 = true ↔ p.2 &&& VOLATILE > 0) ∧
      (is_precious_reg p.1 = true ↔ p.2 &&& PRECIOUS > 0) ∧
      (is_readable_noinc_reg p.1 = true ↔ p.2 &&& READ_NO_INC > 0) ∧
      (is_writeable_noinc_reg p.1 = true ↔ p.2 &&& WRITE_NO_INC > 0)) := by
  constructor
  · intro reg h
    exact ⟨access_any_eq_false h, access_any_eq_false h, access_any_eq_false h,
      access_any_eq_false h, access_any_eq_false h, access_any_eq_false h⟩
  · decide

/-- Witness for C7 at the undeclared address 0x7. -/
theorem undeclared_register_inaccessible_witness :
    is_readable_reg 0x7 = false ∧ is_writeable_reg 0x7 = false ∧
    is_volatile_reg 0x7 = false ∧ is_precious_reg 0x7 = false ∧
    is_readable_noinc_reg 0x7 = false ∧ is_writeable_noinc_reg 0x7 = false :=
  undeclared_register_inaccessible.1 0x7 (by decide)

/-- C6: for valid `(lsb, msb)` with `lsb ≤ msb < 32`, the generated raw-field
`mask()` has bit `i` set exactly for `lsb ≤ i ≤ msb` (contiguous, lowest at
`lsb`), hence exactly `msb - lsb + 1` set bits; the enum-field generator
produces the same mask, and the bit-field generator is its `lsb = msb`
instance. -/
theorem field_mask_contiguous (lsb msb : Nat) (h1 : lsb ≤ msb) (h2 : msb < 32) :
    (∀ i, (raw_mask lsb msb).testBit i = decide (lsb ≤ i ∧ i ≤ msb)) ∧
    enum_mask lsb msb = raw_mask lsb msb ∧
    (∀ pos, bit_mask pos = raw_mask pos pos) ∧
    ((Finset.range 32).filter (fun i => (raw_mask lsb msb).testBit i = true)).card
      = msb - lsb + 1 := by
  have hchar : ∀ i, (raw_mask lsb msb).testBit i = decide (lsb ≤ i ∧ i ≤ msb) :=
    fun i => genmask_testBit h1 i
  refine ⟨hchar, rfl, fun _ => rfl, ?_⟩
  have hset : (Finset.range 32).filter (fun i => (raw_mask lsb msb).testBit i = true)
      = Finset.Icc lsb msb := by
    ext i
    simp only [Finset.mem_filter, Finset.mem_range, Finset.mem_Icc, hchar i,
      decide_eq_true_eq]
    omega
  rw [hset, Nat.card_Icc]
  omega

/-- Witness for C6 at `lsb = 1`, `msb = 3`. -/
theorem field_mask_contiguous_witness :
    (∀ i, (raw_mask 1 3).testBit i = decide (1 ≤ i ∧ i ≤ 3)) ∧
    enum_mask 1 3 = raw_mask 1 3 ∧
    (∀ pos, bit_mask pos = raw_mask pos pos) ∧
    ((Finset.range 32).filter (fun i => (raw_mask 1 3).testBit i = true)).card = 3 :=
  field_mask_contiguous 1 3 (by decide) (by decide)

/-- C4 counterexample: at `uv = 593750` (an on-grid value below `min_uv`) the
code's selector is the true ceiling `-1`, while the claim's formula
`(uv - min_uv + step_uv - 1) / step_uv` (truncating division, as in the
source's `i32` arithmetic) yields `0` — so the claim "the selector equals
that formula for every requested uv" is false as stated. -/
theorem set_suspend_voltage_formula_counterexample :
    set_suspend_voltage false 593750 = .ok (.progvsel1_voutvsel1, -1) ∧
    (593750 - 600000 + 6250 - 1 : Int).tdiv 6250 = 0 ∧
    (-1 : Int) ≠ 0 :=
  ⟨rfl, by decide, by decide⟩

/-- C4 amended: `set_suspend_voltage(uv)` writes to `progvsel1.voutvsel1` the
selector obtained by ceiling division of `uv - 600000` by `6250` — the
smallest selector whose voltage is not below the request (round up, never
down) — and for every `uv ≥ min_uv` that selector equals the claim's formula
`(uv - min_uv + step_uv - 1) / step_uv`. -/
theorem set_suspend_voltage_ceiling (uv : Int) (huv : 600000 ≤ uv) :
    set_suspend_voltage false uv = .ok (.progvsel1_voutvsel1, suspend_selector uv) ∧
    suspend_selector uv = (uv - 600000 + 6250 - 1).tdiv 6250 ∧
    uv - 600000 ≤ 6250 * suspend_selector uv ∧
    6250 * suspend_selector uv < uv - 600000 + 6250 := by
  obtain ⟨n, hn⟩ : ∃ n : Nat, uv - 600000 = (n : Int) :=
    ⟨(uv - 600000).toNat, (Int.toNat_of_nonneg (by omega)).symm⟩
  have hA : (uv - 600000).tdiv 6250 = ((n / 6250 : Nat) : Int) := by rw [hn]; rfl
  have hB : (uv - 600000).tmod 6250 = ((n % 6250 : Nat) : Int) := by rw [hn]; rfl
  have hC : uv - 600000 + 6250 - 1 = ((n + 6249 : Nat) : Int) := by
    push_cast
    omega
  have hD : (uv - 600000 + 6250 - 1).tdiv 6250 = (((n + 6249) / 6250 : Nat) : Int) := by
    rw [hC]; rfl
  have hsel : suspend_selector uv =
      if ((n % 6250 : Nat) : Int) > 0 then ((n / 6250 : Nat) : Int) + 1
      else ((n / 6250 : Nat) : Int) := by
    rw [suspend_selector, hA, hB]
  refine ⟨rfl, ?_, ?_, ?_⟩
  · rw [hsel, hD]
    split
    · next hc => omega
    · next hc => omega
  · rw [hsel, hn]
    split
    · next hc => omega
    · next hc => omega
  · rw [hsel, hn]
    split
    · next hc => omega
    · next hc => omega

/-- Witness for the amended C4 at `uv = 600001`. -/
theorem set_suspend_voltage_ceiling_witness :
    set_suspend_voltage false 600001 = .ok (.progvsel1_voutvsel1, suspend_selector 600001) ∧
    suspend_selector 600001 = (600001 - 600000 + 6250 - 1 : Int).tdiv 6250 ∧
    (600001 - 600000 : Int) ≤ 6250 * suspend_selector 600001 ∧
    6250 * suspend_selector 600001 < 600001 - 600000 + 6250 :=
  set_suspend_voltage_ceiling 600001 (by decide)

/-! ## Panel sequencer lemmas -/

@[simp] lemma setRail_railOn (st : PanelState) (i : Nat) (b : Bool) (j : Nat) :
    (setRail st i b).railOn j = if j = i then b else st.railOn j := rfl

@[simp] lemma setRail_prepared (st : PanelState) (i : Nat) (b : Bool) :
    (setRail st i b).prepared = st.prepared := rfl

@[simp] lemma setRail_resetVal (st : PanelState) (i : Nat) (b : Bool) :
    (setRail st i b).resetVal = st.resetVal := rfl

@[simp] lemma setRail_hasReset (st : PanelState) (i : Nat) (b : Bool) :
    (setRail st i b).hasReset = st.hasReset := rfl

@[simp] lemma setRail_modeFlags (st : PanelState) (i : Nat) (b : Bool) :
    (setRail st i b).modeFlags = st.modeFlags := rfl

@[simp] lemma setReset_railOn (st : PanelState) (v : Nat) (j : Nat) :
    (setReset st v).railOn j = st.railOn j := rfl

@[simp] lemma setReset_prepared (st : PanelState) (v : Nat) :
    (setReset st v).prepared = st.prepared := rfl

@[simp] lemma setReset_resetVal (st : PanelState) (v : Nat) :
    (setReset st v).resetVal = v := rfl

@[simp] lemma setReset_hasReset (st : PanelState) (v : Nat) :
    (setReset st v).hasReset = st.hasReset := rfl

@[simp] lemma setReset_modeFlags (st : PanelState) (v : Nat) :
    (setReset st v).modeFlags = st.modeFlags := rfl

lemma disable_rails_prepared (l : List Nat) : ∀ st : PanelState,
    (disable_rails st l).2.prepared = st.prepared := by
  induction l with
  | nil => intro st; rfl
  | cons i rest ih => intro st; simp [disable_rails, ih]

lemma disable_rails_resetVal (l : List Nat) : ∀ st : PanelState,
    (disable_rails st l).2.resetVal = st.resetVal := by
  induction l with
  | nil => intro st; rfl
  | cons i rest ih => intro st; simp [disable_rails, ih]

lemma disable_rails_hasReset (l : List Nat) : ∀ st : PanelState,
    (disable_rails st l).2.hasReset = st.hasReset := by
  induction l with
  | nil => intro st; rfl
  | cons i rest ih => intro st; simp [disable_rails, ih]

lemma disable_rails_modeFlags (l : List Nat) : ∀ st : PanelState,
    (disable_rails st l).2.modeFlags = st.modeFlags := by
  induction l with
  | nil => intro st; rfl
  | cons i rest ih => intro st; simp [disable_rails, ih]

lemma disable_rails_railOn (l : List Nat) : ∀ (st : PanelState) (j : Nat),
    (disable_rails st l).2.railOn j = if j ∈ l then false else st.railOn j := by
  induction l with
  | nil => intro st j; simp [disable_rails]
  | cons i rest ih =>
    intro st j
    simp only [disable_rails, ih, setRail_railOn, List.mem_cons]
    by_cases h1 : j ∈ rest <;> by_cases h2 : j = i <;> simp [h1, h2]

/-- The enable loop appends the successfully enabled rails to the push list,
turns exactly those rails on, and changes nothing else in the state. -/
lemma enable_rails_spec (env : PrepEnv) : ∀ (l p : List Nat) (st : PanelState),
    ∃ d : List Nat,
      (enable_rails env st p l).2.2.1 = p ++ d ∧
      (∀ j, (enable_rails env st p l).2.1.railOn j =
        if j ∈ d then true else st.railOn j) ∧
      (enable_rails env st p l).2.1.prepared = st.prepared ∧
      (enable_rails env st p l).2.1.resetVal = st.resetVal ∧
      (enable_rails env st p l).2.1.hasReset = st.hasReset ∧
      (enable_rails env st p l).2.1.modeFlags = st.modeFlags := by
  intro l
  induction l with
  | nil =>
    intro p st
    exact ⟨[], by simp [enable_rails], by simp [enable_rails], rfl, rfl, rfl, rfl⟩
  | cons i rest ih =>
    intro p st
    by_cases hi : env.railOk i = true
    · obtain ⟨d, hd1, hd2, hd3, hd4, hd5, hd6⟩ := ih (p ++ [i]) (setRail st i true)
      refine ⟨i :: d, ?_, ?_, ?_, ?_, ?_, ?_⟩
      · simp [enable_rails, hi, hd1]
      · intro j
        simp only [enable_rails, hi, if_true]
        rw [hd2 j]
        by_cases h1 : j ∈ d <;> by_cases h2 : j = i <;> simp [h1, h2]
      · simp [enable_rails, hi, hd3]
      · simp [enable_rails, hi, hd4]
      · simp [enable_rails, hi, hd5]
      · simp [enable_rails, hi, hd6]
    · refine ⟨[], ?_, ?_, ?_, ?_, ?_, ?_⟩ <;>
        simp [enable_rails, hi]

lemma cmd_loop_all_ok (env : PrepEnv) (h : ∀ i, env.cmdOk i = true) :
    ∀ (cmds : List Cmd) (idx : Nat),
    cmd_loop env idx cmds =
      (cmds.flatMap (fun c =>
        [Ev.write_cmd c.1,
         Ev.sleep (if c.2 == 0 then delta_from_nanos 100 else delta_from_millis c.2)]),
       none) := by
  intro cmds
  induction cmds with
  | nil => intro idx; rfl
  | cons c rest ih => intro idx; simp [cmd_loop, h idx, ih]

lemma disables_append (a b : List Ev) :
    disables (a ++ b) = disables a ++ disables b := by
  simp [disables]

lemma reset_guard_prepared (st : PanelState) :
    (reset_guard st).2.prepared = st.prepared := by
  rw [reset_guard]; split <;> rfl

lemma reset_guard_railOn (st : PanelState) (j : Nat) :
    (reset_guard st).2.railOn j = st.railOn j := by
  rw [reset_guard]; split <;> rfl

lemma reset_guard_modeFlags (st : PanelState) :
    (reset_guard st).2.modeFlags = st.modeFlags := by
  rw [reset_guard]; split <;> rfl

lemma reset_guard_resetVal (st : PanelState) (h : st.hasReset = true) :
    (reset_guard st).2.resetVal = 1 := by
  rw [reset_guard, if_pos h]
  rfl

/-- State of a full rollback (reset guard then regulator guard) from a base
state. -/
lemma rollback_fields (X : PanelState) (l : List Nat) :
    ((disable_rails (reset_guard X).2 l).2.prepared = X.prepared) ∧
    (∀ j, (disable_rails (reset_guard X).2 l).2.railOn j =
      if j ∈ l then false else X.railOn j) ∧
    ((disable_rails (reset_guard X).2 l).2.modeFlags = X.modeFlags) ∧
    (X.hasReset = true → (disable_rails (reset_guard X).2 l).2.resetVal = 1) := by
  refine ⟨?_, ?_, ?_, ?_⟩
  · rw [disable_rails_prepared, reset_guard_prepared]
  · intro j; rw [disable_rails_railOn, reset_guard_railOn]
  · rw [disable_rails_modeFlags, reset_guard_modeFlags]
  · intro h; rw [disable_rails_resetVal, reset_guard_resetVal X h]

/-- Characterization of the state `prepare` returns on every error path:
`prepared` is unchanged, some set `d` of rails (those enabled during the
call) ends disabled while all other rails are untouched, an existing reset
line ends asserted, and the mode flags are unchanged on the rail-failure
path and `st.modeFlags ||| LPM` on every later failure path. -/
lemma prepare_error_cases (st : PanelState) (cmds : List Cmd) (env : PrepEnv)
    (e : PrepErr) (hres : (prepare st cmds env).2.2 = .error e) :
    ∃ d : List Nat,
      ((prepare st cmds env).2.1).prepared = st.prepared ∧
      (∀ j, ((prepare st cmds env).2.1).railOn j =
        if j ∈ d then false else st.railOn j) ∧
      (st.hasReset = true → ((prepare st cmds env).2.1).resetVal = 1) ∧
      ((∃ i, e = .rail i ∧ ((prepare st cmds env).2.1).modeFlags = st.modeFlags) ∨
        ((prepare st cmds env).2.1).modeFlags = st.modeFlags ||| LPM) := by
  have hA2p : (if st.hasReset = true then ([Ev.set_reset 1], setReset st 1)
      else ([], st)).2.prepared = st.prepared := by split <;> rfl
  have hA2r : ∀ j, (if st.hasReset = true then ([Ev.set_reset 1], setReset st 1)
      else ([], st)).2.railOn j = st.railOn j := by intro j; split <;> rfl
  have hA2m : (if st.hasReset = true then ([Ev.set_reset 1], setReset st 1)
      else ([], st)).2.modeFlags = st.modeFlags := by split <;> rfl
  have hA2h : (if st.hasReset = true then ([Ev.set_reset 1], setReset st 1)
      else ([], st)).2.hasReset = st.hasReset := by split <;> rfl
  have hA2v : st.hasReset = true → (if st.hasReset = true then
      ([Ev.set_reset 1], setReset st 1) else ([], st)).2.resetVal = 1 := by
    intro h; rw [if_pos h]; rfl
  obtain ⟨d, hd1, hd2, hd3, hd4, hd5, hd6⟩ :=
    enable_rails_spec env [0, 1, 2] []
      (if st.hasReset = true then ([Ev.set_reset 1], setReset st 1) else ([], st)).2
  simp only [prepare] at hres ⊢
  rcases hE : enable_rails env
      (if st.hasReset = true then ([Ev.set_reset 1], setReset st 1) else ([], st)).2
      [] [0, 1, 2] with ⟨tE, stE, pushed, fail⟩
  rw [hE] at hres hd1 hd2 hd3 hd4 hd5 hd6
  dsimp only at hres hd1 hd2 hd3 hd4 hd5 hd6 ⊢
  simp only [List.nil_append] at hd1
  have hd1s : d = pushed := hd1.symm
  subst hd1s
  cases fail with
  | some i =>
    dsimp only at hres ⊢
    refine ⟨d, ?_, ?_, ?_, ?_⟩
    · rw [disable_rails_prepared, hd3, hA2p]
    · intro j
      rw [disable_rails_railOn, hd2 j, hA2r j]
      by_cases hm : j ∈ d <;> simp [hm]
    · intro h
      rw [disable_rails_resetVal, hd4, hA2v h]
    · left
      refine ⟨i, ?_, ?_⟩
      · injection hres with h
        exact h.symm
      · rw [disable_rails_modeFlags, hd6, hA2m]
  | none =>
    have hB2p : (if st.hasReset = true then ([Ev.set_reset 0], setReset stE 0)
        else ([], stE)).2.prepared = stE.prepared := by split <;> rfl
    have hB2r : ∀ j, (if st.hasReset = true then ([Ev.set_reset 0], setReset stE 0)
        else ([], stE)).2.railOn j = stE.railOn j := by intro j; split <;> rfl
    have hB2m : (if st.hasReset = true then ([Ev.set_reset 0], setReset stE 0)
        else ([], stE)).2.modeFlags = stE.modeFlags := by split <;> rfl
    have hB2h : (if st.hasReset = true then ([Ev.set_reset 0], setReset stE 0)
        else ([], stE)).2.hasReset = stE.hasReset := by split <;> rfl
    dsimp only at hres ⊢
    set B := (if st.hasReset = true then ([Ev.set_reset 0], setReset stE 0)
      else ([], stE)) with hB
    set st4 := { B.2 with modeFlags := B.2.modeFlags ||| LPM } with hst4
    have h4p : st4.prepared = st.prepared := by
      rw [hst4]; show B.2.prepared = st.prepared; rw [hB2p, hd3, hA2p]
    have h4r : ∀ j, st4.railOn j = if j ∈ d then true else st.railOn j := by
      intro j
      rw [hst4]; show B.2.railOn j = _
      rw [hB2r j, hd2 j]
      by_cases hm : j ∈ d <;> simp [hm, hA2r j]
    have h4m : st4.modeFlags = st.modeFlags ||| LPM := by
      rw [hst4]; show B.2.modeFlags ||| LPM = _; rw [hB2m, hd6, hA2m]
    have h4h : st4.hasReset = st.hasReset := by
      rw [hst4]; show B.2.hasReset = _; rw [hB2h, hd5, hA2h]
    have hroll :
        ((disable_rails (reset_guard st4).2 d).2.prepared = st.prepared) ∧
        (∀ j, (disable_rails (reset_guard st4).2 d).2.railOn j =
          if j ∈ d then false else st.railOn j) ∧
        (st.hasReset = true →
          (disable_rails (reset_guard st4).2 d).2.resetVal = 1) ∧
        ((disable_rails (reset_guard st4).2 d).2.modeFlags = st.modeFlags ||| LPM) := by
      obtain ⟨r1, r2, r3, r4⟩ := rollback_fields st4 d
      refine ⟨by rw [r1, h4p], ?_, ?_, by rw [r3, h4m]⟩
      · intro j
        rw [r2 j, h4r j]
        by_cases hm : j ∈ d <;> simp [hm]
      · intro h
        exact r4 (by rw [h4h]; exact h)
    have hne : ¬(true = false) := by decide
    cases hs : env.softResetOk with
    | false =>
      rw [hs] at hres
      rw [if_pos rfl] at hres ⊢
      dsimp only at hres ⊢
      exact ⟨d, hroll.1, hroll.2.1, hroll.2.2.1, Or.inr hroll.2.2.2⟩
    | true =>
      rw [hs] at hres
      rw [if_neg hne] at hres ⊢
      rcases hC : cmd_loop env 0 cmds with ⟨tC, cfail⟩
      rw [hC] at hres
      cases cfail with
      | some i =>
        dsimp only at hres ⊢
        exact ⟨d, hroll.1, hroll.2.1, hroll.2.2.1, Or.inr hroll.2.2.2⟩
      | none =>
        cases hes : env.exitSleepOk with
        | false =>
          rw [hes] at hres
          rw [if_pos rfl] at hres ⊢
          dsimp only at hres ⊢
          exact ⟨d, hroll.1, hroll.2.1, hroll.2.2.1, Or.inr hroll.2.2.2⟩
        | true =>
          rw [hes] at hres
          rw [if_neg hne] at hres ⊢
          cases hdo : env.displayOnOk with
          | false =>
            rw [hdo] at hres
            rw [if_pos rfl] at hres ⊢
            dsimp only at hres ⊢
            exact ⟨d, hroll.1, hroll.2.1, hroll.2.2.1, Or.inr hroll.2.2.2⟩
          | true =>
            rw [hdo] at hres
            rw [if_neg hne] at hres
            simp at hres

/-! ## Claim theorems for the panel sequencer -/

/-- C1 counterexample: with no reset line, rails 0 and 1 enabling fine and
rail 2 failing, `prepare` unwinds by disabling rail 0 first and rail 1
second (`KVec::into_iter` yields push order) — not the claimed reverse
declaration order (rail 1 first, rail 0 last). -/
theorem prepare_unwind_order_counterexample :
    (prepare st_test [] env_rail2_fails).2.2 = .error (.rail 2) ∧
    disables (prepare st_test [] env_rail2_fails).1 = [0, 1] ∧
    ([0, 1] : List Nat) ≠ [1, 0] :=
  ⟨rfl, by decide, by decide⟩

/-- C1 amended: if rail `i`'s enable fails (rails before it having enabled
successfully), `prepare` returns that rail's error and, before returning,
disables every rail enabled during the call — in forward declaration order
(rail 0 first, rail `i-1` last), not reverse. -/
theorem prepare_rail_failure_unwind (st : PanelState) (cmds : List Cmd)
    (env : PrepEnv) (i : Nat) (hi : i < 3)
    (hok : ∀ j, j < i → env.railOk j = true) (hfail : env.railOk i = false) :
    (prepare st cmds env).2.2 = .error (.rail i) ∧
    disables (prepare st cmds env).1 = List.range i := by
  interval_cases i
  · constructor
    · simp [prepare, enable_rails, disable_rails, hfail]
    · have hr : List.range 0 = ([] : List Nat) := rfl
      rw [hr]
      cases hR : st.hasReset <;>
        simp [prepare, enable_rails, disable_rails, disables, hfail, hR, disables_append]
  · have h0 : env.railOk 0 = true := hok 0 (by omega)
    constructor
    · simp [prepare, enable_rails, disable_rails, h0, hfail]
    · have hr : List.range 1 = [0] := rfl
      rw [hr]
      cases hR : st.hasReset <;>
        simp [prepare, enable_rails, disable_rails, disables, h0, hfail, hR, disables_append]
  · have h0 : env.railOk 0 = true := hok 0 (by omega)
    have h1 : env.railOk 1 = true := hok 1 (by omega)
    constructor
    · simp [prepare, enable_rails, disable_rails, h0, h1, hfail]
    · have hr : List.range 2 = [0, 1] := rfl
      rw [hr]
      cases hR : st.hasReset <;>
        simp [prepare, enable_rails, disable_rails, disables, h0, h1, hfail, hR, disables_append]

/-- Witness for the amended C1: rail 1 fails after rail 0 enabled. -/
theorem prepare_rail_failure_unwind_witness :
    (prepare st_test []
      { railOk := fun i => i < 1, softResetOk := true, cmdOk := fun _ => true,
        exitSleepOk := true, displayOnOk := true }).2.2 = .error (.rail 1) ∧
    disables (prepare st_test []
      { railOk := fun i => i < 1, softResetOk := true, cmdOk := fun _ => true,
        exitSleepOk := true, displayOnOk := true }).1 = List.range 1 :=
  prepare_rail_failure_unwind st_test [] _ 1 (by omega)
    (fun j hj => by interval_cases j; rfl) rfl

def st_reset : PanelState :=
  { hasReset := true, resetVal := 1, railOn := fun _ => false,
    prepared := false, modeFlags := 3 }

def env_soft_reset_fails : PrepEnv :=
  { railOk := fun _ => true, softResetOk := false, cmdOk := fun _ => true,
    exitSleepOk := true, displayOnOk := true }

def env_all_ok : PrepEnv :=
  { railOk := fun _ => true, softResetOk := true, cmdOk := fun _ => true,
    exitSleepOk := true, displayOnOk := true }

def cmds_demo : List Cmd := [([0xb0, 0x04], 0), ([0x29], 100), ([0x11], 120)]

/-- C2: whenever `prepare` fails — at a rail enable, the soft reset, a
power-on command, the exit-sleep or the display-on step — it returns the
failing step's error with `prepared` still false, every rail that was
enabled during the call disabled again (rails start disabled in the
unprepared state), and, when a reset line exists, the reset line driven
back to the asserted level 1. -/
theorem prepare_failure_restores_state (st : PanelState) (cmds : List Cmd)
    (env : PrepEnv) (e : PrepErr)
    (hprep : st.prepared = false) (hrails : ∀ i, st.railOn i = false)
    (hres : (prepare st cmds env).2.2 = .error e) :
    ((prepare st cmds env).2.1).prepared = false ∧
    (∀ i, ((prepare st cmds env).2.1).railOn i = false) ∧
    (st.hasReset = true → ((prepare st cmds env).2.1).resetVal = 1) := by
  obtain ⟨d, h1, h2, h3, _⟩ := prepare_error_cases st cmds env e hres
  refine ⟨by rw [h1, hprep], ?_, h3⟩
  intro i
  rw [h2 i]
  by_cases hm : i ∈ d <;> simp [hm, hrails i]

/-- Witness for C2: reset line present, rails 0 and 1 enable, rail 2 fails. -/
theorem prepare_failure_restores_state_witness :
    ((prepare st_reset [] env_rail2_fails).2.1).prepared = false ∧
    (∀ i, ((prepare st_reset [] env_rail2_fails).2.1).railOn i = false) ∧
    (st_reset.hasReset = true →
      ((prepare st_reset [] env_rail2_fails).2.1).resetVal = 1) :=
  prepare_failure_restores_state st_reset [] env_rail2_fails (.rail 2)
    rfl (fun _ => rfl) rfl

/-- C9: when `prepare` fails at any step after the LPM bit has been OR-ed
into the DSI mode flags (soft reset, a power-on command, exit-sleep or
display-on — every failure other than a rail enable), the returned state
still has the LPM bit (bit 11) set: the rollback guards restore regulators
and the reset line, never the mode flags. -/
theorem prepare_failure_keeps_lpm (st : PanelState) (cmds : List Cmd)
    (env : PrepEnv) (e : PrepErr)
    (hres : (prepare st cmds env).2.2 = .error e)
    (hnr : ∀ i, e ≠ .rail i) :
    ((prepare st cmds env).2.1).modeFlags = st.modeFlags ||| LPM ∧
    (((prepare st cmds env).2.1).modeFlags).testBit 11 = true := by
  obtain ⟨d, _, _, _, h4⟩ := prepare_error_cases st cmds env e hres
  rcases h4 with ⟨i, hei, _⟩ | hm
  · exact absurd hei (hnr i)
  · refine ⟨hm, ?_⟩
    rw [hm, Nat.testBit_or]
    have hl : (LPM : Nat).testBit 11 = true := by decide
    simp [hl]

/-- Witness for C9: the soft reset fails. -/
theorem prepare_failure_keeps_lpm_witness :
    ((prepare st_test [] env_soft_reset_fails).2.1).modeFlags =
      st_test.modeFlags ||| LPM ∧
    (((prepare st_test [] env_soft_reset_fails).2.1).modeFlags).testBit 11 = true :=
  prepare_failure_keeps_lpm st_test [] env_soft_reset_fails .softReset rfl
    (fun _ h => PrepErr.noConfusion h)

/-- C8: on a fully successful `prepare`, the power-on commands are issued
strictly in table order, each followed by a blocking sleep of its declared
post-delay in milliseconds — or 100 nanoseconds when the declared delay is
zero. -/
theorem prepare_cmd_sequence (st : PanelState) (cmds : List Cmd) (env : PrepEnv)
    (hr0 : env.railOk 0 = true) (hr1 : env.railOk 1 = true)
    (hr2 : env.railOk 2 = true) (hs : env.softResetOk = true)
    (hc : ∀ i, env.cmdOk i = true) (he : env.exitSleepOk = true)
    (hd : env.displayOnOk = true) :
    (prepare st cmds env).1 =
      (if st.hasReset then [Ev.set_reset 1] else []) ++
      [Ev.sleep (delta_from_millis 30),
       Ev.enable_rail 0, Ev.enable_rail 1, Ev.enable_rail 2,
       Ev.sleep (delta_from_millis 30)] ++
      (if st.hasReset then [Ev.set_reset 0] else []) ++
      [Ev.sleep (delta_from_millis 30), Ev.soft_reset,
       Ev.sleep (delta_from_millis 20)] ++
      cmds.flatMap (fun c =>
        [Ev.write_cmd c.1,
         Ev.sleep (if c.2 = 0 then delta_from_nanos 100 else delta_from_millis c.2)]) ++
      [Ev.exit_sleep, Ev.sleep (delta_from_millis 120), Ev.display_on,
       Ev.sleep (delta_from_millis 120)] := by
  have hcl := cmd_loop_all_ok env hc cmds 0
  cases hR : st.hasReset <;>
    simp [prepare, enable_rails, hr0, hr1, hr2, hs, he, hd, hR, hcl, beq_iff_eq]

/-- Witness for C8: a three-command table, one with a zero delay. -/
theorem prepare_cmd_sequence_witness :
    (prepare st_test cmds_demo env_all_ok).1 =
      (if st_test.hasReset then [Ev.set_reset 1] else []) ++
      [Ev.sleep (delta_from_millis 30),
       Ev.enable_rail 0, Ev.enable_rail 1, Ev.enable_rail 2,
       Ev.sleep (delta_from_millis 30)] ++
      (if st_test.hasReset then [Ev.set_reset 0] else []) ++
      [Ev.sleep (delta_from_millis 30), Ev.soft_reset,
       Ev.sleep (delta_from_millis 20)] ++
      cmds_demo.flatMap (fun c =>
        [Ev.write_cmd c.1,
         Ev.sleep (if c.2 = 0 then delta_from_nanos 100 else delta_from_millis c.2)]) ++
      [Ev.exit_sleep, Ev.sleep (delta_from_millis 120), Ev.display_on,
       Ev.sleep (delta_from_millis 120)] :=
  prepare_cmd_sequence st_test cmds_demo env_all_ok rfl rfl rfl rfl
    (fun _ => rfl) rfl rfl

/-- C5: `unprepare` with `prepared = false` returns success immediately with
no hardware events and an unchanged state; since `unprepare` always returns
success and always leaves `prepared = false`, calling it twice in a row
performs no hardware operations on the second call and both calls succeed. -/
theorem unprepare_idempotent (st : PanelState) (offCmds : List Cmd) :
    (st.prepared = false → unprepare st offCmds = ([], st, .ok ())) ∧
    (unprepare st offCmds).2.2 = .ok () ∧
    (unprepare ((unprepare st offCmds).2.1) offCmds).1 = [] ∧
    (unprepare ((unprepare st offCmds).2.1) offCmds).2.2 = .ok () := by
  have hgen : ∀ s : PanelState, s.prepared = false →
      unprepare s offCmds = ([], s, .ok ()) := by
    intro s h
    simp [unprepare, h]
  have hok2 : ∀ s : PanelState, (unprepare s offCmds).2.2 = .ok () := by
    intro s
    by_cases h : s.prepared = false <;> simp [unprepare, h]
  have hp : ((unprepare st offCmds).2.1).prepared = false := by
    by_cases h : st.prepared = false <;> simp [unprepare, h]
  refine ⟨hgen st, hok2 st, ?_, hok2 _⟩
  rw [hgen _ hp]

/-- Witness for C5 at a concrete unprepared state. -/
theorem unprepare_idempotent_witness :
    unprepare st_test [] = ([], st_test, .ok ()) :=
  (unprepare_idempotent st_test []).1 rfl

end Spec2Proof
